import Mathlib

/-
Verification development for the buffered client pipeline in
crates/re_sdk_comms/src/buffered_client.rs.

The pipeline has two worker stages connected by unbounded FIFO channels:
the encoder stage (function msg_encode) turns each submitted LogMsg into an
encoded byte packet and forwards control signals verbatim, and the sender
stage (function tcp_sender) owns the connection, performs retrying sends
with exponential backoff (function send_until_success), handles address
changes, and acknowledges flush barriers.

The connection object (struct TcpClient, file tcp_client.rs) and the
encoding function (encode_log_msg) are external collaborators of this core;
they are represented here by oracles: a per-packet failure count for send,
a per-flush success flag for flush, and an abstract encoding function.
-/

namespace BufferedClient

/-- Byte payloads are modelled as lists of naturals. -/
abbrev Bytes := List Nat

/-- Items on the first channel, from the client handle to the encoder stage
(enum MsgMsg in the source). -/
inductive MsgMsg (Msg Addr : Type) where
  | logMsg (m : Msg)
  | setAddr (a : Addr)
  | flush
  deriving DecidableEq

/-- Items on the second channel, from the encoder stage to the sender stage
(enum PacketMsg in the source). -/
inductive PacketMsg (Addr : Type) where
  | packet (p : Bytes)
  | setAddr (a : Addr)
  | flush
  deriving DecidableEq

/-- Result of one invocation of send_until_success: the outcome of each send
attempt in order (false = failed, true = succeeded), the backoff waits
performed in milliseconds, whether the packet was delivered, and whether the
invocation was ended by a quit signal. -/
structure RetryOutcome where
  tries : List Bool
  waits : List Nat
  delivered : Bool
  quit : Bool
  deriving DecidableEq

/-- The retry loop of send_until_success after the initial attempt failed.
remFails is the number of further failing attempts the connection stub will
produce before succeeding; sleepMs is the current backoff wait; quitIn is
the number of loop iterations before a quit message becomes available on
quit_rx (none = never). Each iteration first takes the quit branch if quit
is available, otherwise waits sleepMs, re-attempts the send, and on failure
doubles the wait, capping it at 3000 (the source line
sleep_ms = (sleep_ms * 2).min(3000)). -/
def retryLoop : Nat → Nat → Option Nat → RetryOutcome
  | _, _, some 0 => { tries := [], waits := [], delivered := false, quit := true }
  | 0, sleepMs, none =>
      { tries := [true], waits := [sleepMs], delivered := true, quit := false }
  | 0, sleepMs, some (_ + 1) =>
      { tries := [true], waits := [sleepMs], delivered := true, quit := false }
  | r + 1, sleepMs, none =>
      let o := retryLoop r (min (sleepMs * 2) 3000) none
      { tries := false :: o.tries, waits := sleepMs :: o.waits,
        delivered := o.delivered, quit := o.quit }
  | r + 1, sleepMs, some (n + 1) =>
      let o := retryLoop r (min (sleepMs * 2) 3000) (some n)
      { tries := false :: o.tries, waits := sleepMs :: o.waits,
        delivered := o.delivered, quit := o.quit }

/-- Function send_until_success against a connection stub that fails the
first k attempts and then succeeds. The first attempt happens before any
quit check (the source attempts tcp_client.send(packet) before entering the
select loop); on initial success the loop is never entered and the backoff
starts at 100 ms otherwise. -/
def send_until_success : Nat → Option Nat → RetryOutcome
  | 0, _ => { tries := [true], waits := [], delivered := true, quit := false }
  | k + 1, quitIn =>
      let o := retryLoop k 100 quitIn
      { tries := false :: o.tries, waits := o.waits,
        delivered := o.delivered, quit := o.quit }

/-- Events observed at the connection and at the flush channel while the
sender stage runs. A sendCall event records bytes handed to the send
operation of the connection (one per attempt, with the address in force); a
delivered event records a send attempt that returned Ok; connFlush records
the result of the connection flush; flushAck records the FlushedMsg sent
back to the client handle; addrSet records an address update. -/
inductive Event (Addr : Type) where
  | sendCall (a : Addr) (p : Bytes)
  | delivered (a : Addr) (p : Bytes)
  | connFlush (ok : Bool)
  | flushAck
  | addrSet (a : Addr)
  deriving DecidableEq

/-- Modelled from the spec: the connection object (struct TcpClient, file
tcp_client.rs, not under src) is an external collaborator whose send is a
best-effort single attempt returning a Result and whose flush returns a
Result; a failure count k means the connection fails the first k send
attempts for this packet and then succeeds. This gives the connection-level
events of one send_until_success invocation with no quit pending: one
sendCall per attempt and a delivered event for the attempt that returned
Ok. -/
def packetEvents {Addr : Type} (a : Addr) (p : Bytes) (k : Nat) : List (Event Addr) :=
  ((send_until_success k none).tries.map fun _ => Event.sendCall a p)
    ++ (if (send_until_success k none).delivered then [Event.delivered a p] else [])

/-- The tcp_sender loop on a list of queued packet messages, with no quit
message ever arriving: the quit branch of its select is then never ready, so
the loop consumes the queue in FIFO order. failsOf gives the connection
failure count for the i-th packet, flushOk the result of the i-th connection
flush; addr is the current address, pIdx and fIdx the running counters. -/
def tcp_sender {Addr : Type} (failsOf : Nat → Nat) (flushOk : Nat → Bool) :
    Addr → Nat → Nat → List (PacketMsg Addr) → List (Event Addr)
  | _, _, _, [] => []
  | addr, pIdx, fIdx, PacketMsg.packet p :: rest =>
      packetEvents addr p (failsOf pIdx)
        ++ tcp_sender failsOf flushOk addr (pIdx + 1) fIdx rest
  | _, pIdx, fIdx, PacketMsg.setAddr a :: rest =>
      Event.addrSet a :: tcp_sender failsOf flushOk a pIdx fIdx rest
  | addr, pIdx, fIdx, PacketMsg.flush :: rest =>
      Event.connFlush (flushOk fIdx) :: Event.flushAck
        :: tcp_sender failsOf flushOk addr pIdx (fIdx + 1) rest

/-- The msg_encode loop on a list of queued client messages, with no quit
message ever arriving: each LogMsg is encoded and forwarded as a packet,
SetAddr and Flush are forwarded verbatim, in FIFO order. The encoding
function is a parameter: encode_log_msg is an external collaborator used by
this loop as a total function from message to bytes. -/
def msg_encode {Msg Addr : Type} (encode : Msg → Bytes) :
    List (MsgMsg Msg Addr) → List (PacketMsg Addr)
  | [] => []
  | MsgMsg.logMsg m :: rest => PacketMsg.packet (encode m) :: msg_encode encode rest
  | MsgMsg.setAddr a :: rest => PacketMsg.setAddr a :: msg_encode encode rest
  | MsgMsg.flush :: rest => PacketMsg.flush :: msg_encode encode rest

/-- The full pipeline from the client handle queue to connection events:
messages pass through msg_encode and then tcp_sender, both channels FIFO. -/
def pipeline_events {Msg Addr : Type} (encode : Msg → Bytes) (failsOf : Nat → Nat)
    (flushOk : Nat → Bool) (addr : Addr) (msgs : List (MsgMsg Msg Addr)) :
    List (Event Addr) :=
  tcp_sender failsOf flushOk addr 0 0 (msg_encode encode msgs)

/-- Successful deliveries (address, payload) in an event list, in order. -/
def deliveredOf {Addr : Type} : List (Event Addr) → List (Addr × Bytes)
  | [] => []
  | Event.delivered a p :: rest => (a, p) :: deliveredOf rest
  | _ :: rest => deliveredOf rest

/-- Payloads handed to the connection send operation, with the address in
force, one entry per attempt, in order. -/
def sendCallsOf {Addr : Type} : List (Event Addr) → List (Addr × Bytes)
  | [] => []
  | Event.sendCall a p :: rest => (a, p) :: sendCallsOf rest
  | _ :: rest => sendCallsOf rest

def isFlushAck {Addr : Type} : Event Addr → Bool
  | Event.flushAck => true
  | _ => false

def isFlushItem {Addr : Type} : PacketMsg Addr → Bool
  | PacketMsg.flush => true
  | _ => false

/-- A choice the crossbeam select makes when more than one branch is ready. -/
inductive Choice where
  | data
  | quit
  deriving DecidableEq

/-- State of one stage thread: its input queue, whether a quit message is
waiting on its quit channel, its private core state, and whether the stage
loop has returned. -/
structure StageState (A S : Type) where
  inQ : List A
  quitPending : Bool
  core : S
  done : Bool
  deriving DecidableEq

/-- One iteration of a stage loop (the select in msg_encode and in
tcp_sender): with only the data branch ready it consumes one item; with only
the quit branch ready it returns; with both branches ready, crossbeam select
picks one of the ready operations nondeterministically, so the choice is an
argument. After the loop has returned, nothing happens any more. -/
def stageStep {A S : Type} (proc : S → A → S) (c : Choice)
    (s : StageState A S) : StageState A S :=
  if s.done then s
  else
    match s.inQ, s.quitPending with
    | [], false => s
    | [], true => { s with done := true }
    | a :: rest, false => { s with inQ := rest, core := proc s.core a }
    | a :: rest, true =>
        match c with
        | Choice.data => { s with inQ := rest, core := proc s.core a }
        | Choice.quit => { s with done := true }

/-- Running a stage loop under a schedule of select choices. -/
def stageRun {A S : Type} (proc : S → A → S) :
    List Choice → StageState A S → StageState A S
  | [], s => s
  | c :: cs, s => stageRun proc cs (stageStep proc c s)

/-- A producer placing one more item at the back of a stage input queue. -/
def enqueue {A S : Type} (a : A) (s : StageState A S) : StageState A S :=
  { s with inQ := s.inQ ++ [a] }

/-- Core state of the sender stage for the interleaved model. -/
structure SenderCore (Addr : Type) where
  addr : Addr
  pIdx : Nat
  fIdx : Nat
  events : List (Event Addr)
  deriving DecidableEq

/-- Processing of a single item of the sender stage queue: the match inside
the data branch of tcp_sender. -/
def senderProc {Addr : Type} (failsOf : Nat → Nat) (flushOk : Nat → Bool)
    (c : SenderCore Addr) : PacketMsg Addr → SenderCore Addr
  | PacketMsg.packet p =>
      { c with pIdx := c.pIdx + 1,
               events := c.events ++ packetEvents c.addr p (failsOf c.pIdx) }
  | PacketMsg.setAddr a =>
      { c with addr := a, events := c.events ++ [Event.addrSet a] }
  | PacketMsg.flush =>
      { c with fIdx := c.fIdx + 1,
               events := c.events ++ [Event.connFlush (flushOk c.fIdx), Event.flushAck] }

/-- Processing of a single item of the encoder stage queue: the match inside
the data branch of msg_encode; the core state is the list of packet messages
forwarded downstream so far. -/
def encoderProc {Msg Addr : Type} (encode : Msg → Bytes)
    (out : List (PacketMsg Addr)) : MsgMsg Msg Addr → List (PacketMsg Addr)
  | MsgMsg.logMsg m => out ++ [PacketMsg.packet (encode m)]
  | MsgMsg.setAddr a => out ++ [PacketMsg.setAddr a]
  | MsgMsg.flush => out ++ [PacketMsg.flush]

/-- Outcome of a client handle operation as seen by the producer thread. -/
inductive OpOutcome where
  | returned
  | panicked (msg : String)
  deriving DecidableEq

/-- Outcome of the flush operation as seen by the producer thread. -/
inductive FlushOutcome where
  | flushComplete
  | flushAbortedWarning
  | panicked (msg : String)
  deriving DecidableEq

/-- A crossbeam channel send: Ok while the consuming thread still holds the
receiver, Err once the receiver has been dropped, which happens when the
stage loop returns and its thread ends. -/
def channelSend (receiverAlive : Bool) : Except Unit Unit :=
  if receiverAlive then Except.ok () else Except.error ()

/-- The expect call on the result of a channel send: returns on Ok, panics
the calling producer thread with the given message on Err. -/
def expectSend (r : Except Unit Unit) (msg : String) : OpOutcome :=
  match r with
  | Except.ok _ => OpOutcome.returned
  | Except.error _ => OpOutcome.panicked msg

/-- The send operation of the client handle: enqueues a LogMsg with expect
on the channel send. -/
def client_send (encoderAlive : Bool) : OpOutcome :=
  expectSend (channelSend encoderAlive) "msg_encoder should not shut down until we tell it to"

/-- The set_addr operation of the client handle: enqueues a SetAddr with
expect on the channel send. -/
def client_set_addr (encoderAlive : Bool) : OpOutcome :=
  expectSend (channelSend encoderAlive) "msg_encoder should not shut down until we tell it to"

/-- The flush operation of the client handle: enqueues a Flush with expect
on the channel send, then blocks on the flushed channel; an Ok receive
completes the flush, an Err receive (channel closed after an abort) is
handled with a warning and a normal return, not a panic. -/
def client_flush (encoderAlive : Bool) (ackArrives : Bool) : FlushOutcome :=
  match channelSend encoderAlive with
  | Except.error _ =>
      FlushOutcome.panicked "msg_encoder should not shut down until we tell it to"
  | Except.ok _ =>
      if ackArrives then FlushOutcome.flushComplete else FlushOutcome.flushAbortedWarning

/-- The warn lines of one send_until_success invocation whose failed
attempts produced the given error strings, in order. The source logs the
first error; then, for each later failed attempt, it compares the new error
string to the error of the FIRST attempt (the variable err is never
reassigned inside the loop) and, when the two differ, logs err again - that
is, the first error, not the error of the attempt that just failed. -/
def send_log_lines : List String → List String
  | [] => []
  | err :: laterErrs =>
      err :: laterErrs.filterMap fun newErr => if newErr ≠ err then some err else none

/-- The warn lines the claim describes, written from its words: log the
first error, then log a later failed attempt's own error exactly when it
differs from the error of the immediately preceding failed attempt. -/
def claim_log_lines_from : String → List String → List String
  | _, [] => []
  | prev, e :: rest => (if e ≠ prev then [e] else []) ++ claim_log_lines_from e rest

/-- Entry point of the claim-side log model. -/
def claim_log_lines : List String → List String
  | [] => []
  | e :: rest => e :: claim_log_lines_from e rest

theorem min_double_cap (x : Nat) :
    min (min x 3000 * 2) 3000 = min (x * 2) 3000 := by
  omega

theorem retryLoop_tries (r : Nat) : ∀ s : Nat,
    (retryLoop r s none).tries = List.replicate r false ++ [true] := by
  induction r with
  | zero => intro s; simp [retryLoop]
  | succ r ih => intro s; simp [retryLoop, ih, List.replicate_succ]

theorem retryLoop_delivered (r : Nat) : ∀ s : Nat,
    (retryLoop r s none).delivered = true := by
  induction r with
  | zero => intro s; simp [retryLoop]
  | succ r ih => intro s; simp [retryLoop, ih]

theorem retryLoop_quit (r : Nat) : ∀ s : Nat,
    (retryLoop r s none).quit = false := by
  induction r with
  | zero => intro s; simp [retryLoop]
  | succ r ih => intro s; simp [retryLoop, ih]

theorem retryLoop_waits (r : Nat) : ∀ j : Nat,
    (retryLoop r (min (100 * 2 ^ j) 3000) none).waits
      = (List.range (r + 1)).map (fun i => min (100 * 2 ^ (j + i)) 3000) := by
  induction r with
  | zero =>
      intro j
      simp [retryLoop, List.range_succ]
  | succ r ih =>
      intro j
      have hcap : min (min (100 * 2 ^ j) 3000 * 2) 3000 = min (100 * 2 ^ (j + 1)) 3000 := by
        have hp : 100 * 2 ^ (j + 1) = 100 * 2 ^ j * 2 := by ring
        rw [hp, min_double_cap]
      have step :
          (retryLoop (r + 1) (min (100 * 2 ^ j) 3000) none).waits
            = min (100 * 2 ^ j) 3000
              :: (retryLoop r (min (min (100 * 2 ^ j) 3000 * 2) 3000) none).waits := by
        simp [retryLoop]
      rw [step, hcap, ih (j + 1)]
      conv_rhs => rw [List.range_succ_eq_map]
      simp only [List.map_cons, List.map_map, Nat.add_zero]
      congr 1
      apply List.map_congr_left
      intro i _
      simp only [Function.comp_apply, Nat.succ_eq_add_one]
      have h : j + 1 + i = j + (i + 1) := by omega
      rw [h]

theorem sus_tries (k : Nat) :
    (send_until_success k none).tries = List.replicate k false ++ [true] := by
  cases k with
  | zero => simp [send_until_success]
  | succ r => simp [send_until_success, retryLoop_tries, List.replicate_succ]

theorem sus_delivered (k : Nat) :
    (send_until_success k none).delivered = true := by
  cases k with
  | zero => simp [send_until_success]
  | succ r => simp [send_until_success, retryLoop_delivered]

theorem sus_quit (k : Nat) :
    (send_until_success k none).quit = false := by
  cases k with
  | zero => simp [send_until_success]
  | succ r => simp [send_until_success, retryLoop_quit]

theorem sus_waits (k : Nat) :
    (send_until_success k none).waits
      = (List.range k).map (fun i => min (100 * 2 ^ i) 3000) := by
  cases k with
  | zero => simp [send_until_success]
  | succ r =>
      have h100 : (100 : Nat) = min (100 * 2 ^ 0) 3000 := by norm_num
      have := retryLoop_waits r 0
      simp only [send_until_success]
      rw [h100, this]
      simp

theorem packetEvents_eq {Addr : Type} (a : Addr) (p : Bytes) (k : Nat) :
    packetEvents a p k
      = ((send_until_success k none).tries.map fun _ => Event.sendCall a p)
          ++ [Event.delivered a p] := by
  simp [packetEvents, sus_delivered]

theorem deliveredOf_append {Addr : Type} (xs ys : List (Event Addr)) :
    deliveredOf (xs ++ ys) = deliveredOf xs ++ deliveredOf ys := by
  induction xs with
  | nil => simp [deliveredOf]
  | cons x xs ih => cases x <;> simp [deliveredOf, ih]

theorem sendCallsOf_append {Addr : Type} (xs ys : List (Event Addr)) :
    sendCallsOf (xs ++ ys) = sendCallsOf xs ++ sendCallsOf ys := by
  induction xs with
  | nil => simp [sendCallsOf]
  | cons x xs ih => cases x <;> simp [sendCallsOf, ih]

theorem deliveredOf_replicate_sendCall {Addr : Type} (a : Addr) (p : Bytes) (n : Nat) :
    deliveredOf (List.replicate n (Event.sendCall a p)) = [] := by
  induction n with
  | zero => simp [deliveredOf]
  | succ n ih => simp [List.replicate_succ, deliveredOf, ih]

theorem sendCallsOf_replicate_sendCall {Addr : Type} (a : Addr) (p : Bytes) (n : Nat) :
    sendCallsOf (List.replicate n (Event.sendCall a p)) = List.replicate n (a, p) := by
  induction n with
  | zero => simp [sendCallsOf]
  | succ n ih => simp [List.replicate_succ, sendCallsOf, ih]

theorem deliveredOf_map_sendCall {Addr : Type} (a : Addr) (p : Bytes) (l : List Bool) :
    deliveredOf (l.map fun _ => Event.sendCall a p) = [] := by
  rw [List.map_const']
  exact deliveredOf_replicate_sendCall a p l.length

theorem sendCallsOf_map_sendCall {Addr : Type} (a : Addr) (p : Bytes) (l : List Bool) :
    sendCallsOf (l.map fun _ => Event.sendCall a p) = l.map fun _ => (a, p) := by
  rw [List.map_const', List.map_const']
  exact sendCallsOf_replicate_sendCall a p l.length

theorem deliveredOf_packetEvents {Addr : Type} (a : Addr) (p : Bytes) (k : Nat) :
    deliveredOf (packetEvents a p k) = [(a, p)] := by
  rw [packetEvents_eq, deliveredOf_append, deliveredOf_map_sendCall]
  simp [deliveredOf]

theorem sendCallsOf_packetEvents {Addr : Type} (a : Addr) (p : Bytes) (k : Nat) :
    sendCallsOf (packetEvents a p k)
      = (send_until_success k none).tries.map fun _ => (a, p) := by
  rw [packetEvents_eq, sendCallsOf_append, sendCallsOf_map_sendCall]
  simp [sendCallsOf]

theorem mem_map_const_of_ne_nil {A B : Type} (c : B) (l : List A) (h : l ≠ []) :
    c ∈ l.map fun _ => c := by
  cases l with
  | nil => exact absurd rfl h
  | cons x xs => simp

theorem sus_tries_ne_nil (k : Nat) : (send_until_success k none).tries ≠ [] := by
  rw [sus_tries]
  simp

theorem msg_encode_append {Msg Addr : Type} (encode : Msg → Bytes)
    (xs ys : List (MsgMsg Msg Addr)) :
    msg_encode encode (xs ++ ys) = msg_encode encode xs ++ msg_encode encode ys := by
  induction xs with
  | nil => simp [msg_encode]
  | cons x xs ih => cases x <;> simp [msg_encode, ih]

theorem msg_encode_map_log {Msg Addr : Type} (encode : Msg → Bytes) (msgs : List Msg) :
    @msg_encode Msg Addr encode (msgs.map MsgMsg.logMsg)
      = msgs.map fun m => PacketMsg.packet (encode m) := by
  induction msgs with
  | nil => simp [msg_encode]
  | cons m ms ih => simp [msg_encode, ih]

theorem tcp_sender_packets_delivered {Msg Addr : Type} (encode : Msg → Bytes)
    (failsOf : Nat → Nat) (flushOk : Nat → Bool) (addr : Addr) (msgs : List Msg) :
    ∀ pIdx fIdx : Nat,
    deliveredOf (tcp_sender failsOf flushOk addr pIdx fIdx
        (msgs.map fun m => PacketMsg.packet (encode m)))
      = msgs.map fun m => (addr, encode m) := by
  induction msgs with
  | nil =>
      intro pIdx fIdx
      simp [tcp_sender, deliveredOf]
  | cons m ms ih =>
      intro pIdx fIdx
      simp [tcp_sender, deliveredOf_append, deliveredOf_packetEvents, ih]

theorem tcp_sender_packets_calls {Msg Addr : Type} (encode : Msg → Bytes)
    (flushOk : Nat → Bool) (addr : Addr) (msgs : List Msg) :
    ∀ pIdx fIdx : Nat,
    sendCallsOf (tcp_sender (fun _ => 0) flushOk addr pIdx fIdx
        (msgs.map fun m => PacketMsg.packet (encode m)))
      = msgs.map fun m => (addr, encode m) := by
  induction msgs with
  | nil =>
      intro pIdx fIdx
      simp [tcp_sender, sendCallsOf]
  | cons m ms ih =>
      intro pIdx fIdx
      simp [tcp_sender, sendCallsOf_append, sendCallsOf_packetEvents, ih,
        send_until_success]

theorem tcp_sender_split_flush {Msg Addr : Type} (encode : Msg → Bytes)
    (failsOf : Nat → Nat) (flushOk : Nat → Bool) (addr : Addr) (msgs : List Msg) :
    ∀ pIdx fIdx : Nat,
    tcp_sender failsOf flushOk addr pIdx fIdx
        ((msgs.map fun m => PacketMsg.packet (encode m)) ++ [PacketMsg.flush])
      = tcp_sender failsOf flushOk addr pIdx fIdx
          (msgs.map fun m => PacketMsg.packet (encode m))
        ++ [Event.connFlush (flushOk fIdx), Event.flushAck] := by
  induction msgs with
  | nil =>
      intro pIdx fIdx
      simp [tcp_sender]
  | cons m ms ih =>
      intro pIdx fIdx
      simp [tcp_sender, ih]

theorem tcp_sender_packets_mem {Msg Addr : Type} (encode : Msg → Bytes)
    (failsOf : Nat → Nat) (flushOk : Nat → Bool) (addr : Addr) (msgs : List Msg) :
    ∀ pIdx fIdx : Nat, ∀ m ∈ msgs,
    Event.sendCall addr (encode m)
      ∈ tcp_sender failsOf flushOk addr pIdx fIdx
          (msgs.map fun mm => PacketMsg.packet (encode mm)) := by
  induction msgs with
  | nil =>
      intro pIdx fIdx m hm
      simp at hm
  | cons m0 ms ih =>
      intro pIdx fIdx m hm
      simp only [List.map_cons, tcp_sender, List.mem_append]
      rcases List.mem_cons.mp hm with h | h
      · left
        subst h
        rw [packetEvents_eq]
        apply List.mem_append_left
        exact mem_map_const_of_ne_nil _ _ (sus_tries_ne_nil _)
      · right
        exact ih (pIdx + 1) fIdx m h

theorem isFlushAck_sendCall {Addr : Type} (a : Addr) (p : Bytes) :
    isFlushAck (Event.sendCall a p) = false := rfl

theorem isFlushAck_delivered {Addr : Type} (a : Addr) (p : Bytes) :
    isFlushAck (Event.delivered a p) = false := rfl

theorem isFlushAck_connFlush {Addr : Type} (b : Bool) :
    isFlushAck (Event.connFlush b : Event Addr) = false := rfl

theorem isFlushAck_ack {Addr : Type} :
    isFlushAck (Event.flushAck : Event Addr) = true := rfl

theorem isFlushAck_addrSet {Addr : Type} (a : Addr) :
    isFlushAck (Event.addrSet a) = false := rfl

theorem isFlushItem_packet {Addr : Type} (p : Bytes) :
    isFlushItem (PacketMsg.packet p : PacketMsg Addr) = false := rfl

theorem isFlushItem_setAddr {Addr : Type} (a : Addr) :
    isFlushItem (PacketMsg.setAddr a) = false := rfl

theorem isFlushItem_flush {Addr : Type} :
    isFlushItem (PacketMsg.flush : PacketMsg Addr) = true := rfl

theorem countP_flushAck_sendCalls {Addr : Type} (a : Addr) (p : Bytes) (n : Nat) :
    ((List.replicate n (Event.sendCall a p)).countP fun e => isFlushAck e) = 0 := by
  induction n with
  | zero => simp
  | succ n ih => simp [List.replicate_succ, List.countP_cons, ih, isFlushAck_sendCall]

theorem tcp_sender_ack_count {Addr : Type} (failsOf : Nat → Nat) (flushOk : Nat → Bool)
    (ps : List (PacketMsg Addr)) :
    ∀ (addr : Addr) (pIdx fIdx : Nat),
    ((tcp_sender failsOf flushOk addr pIdx fIdx ps).countP fun e => isFlushAck e)
      = ps.countP fun q => isFlushItem q := by
  induction ps with
  | nil =>
      intro addr pIdx fIdx
      simp [tcp_sender]
  | cons q ps ih =>
      intro addr pIdx fIdx
      cases q with
      | packet p =>
          simp [tcp_sender, List.countP_append, List.countP_cons, packetEvents_eq,
            countP_flushAck_sendCalls, isFlushAck_sendCall, isFlushAck_delivered,
            isFlushItem_packet, ih]
      | setAddr a =>
          simp [tcp_sender, List.countP_cons, isFlushAck_addrSet, isFlushItem_setAddr, ih]
      | flush =>
          simp [tcp_sender, List.countP_cons, isFlushAck_connFlush, isFlushAck_ack,
            isFlushItem_flush, ih]

theorem stageStep_done {A S : Type} (proc : S → A → S) (c : Choice)
    (s : StageState A S) (h : s.done = true) : stageStep proc c s = s := by
  simp [stageStep, h]

theorem stageRun_done {A S : Type} (proc : S → A → S) (cs : List Choice) :
    ∀ s : StageState A S, s.done = true → stageRun proc cs s = s := by
  induction cs with
  | nil =>
      intro s _
      simp [stageRun]
  | cons c cs ih =>
      intro s h
      simp [stageRun, stageStep_done proc c s h, ih s h]

/-- C1: for every sequence of N submissions followed by a flush on a single
client, with no quit signal issued, the byte payloads handed to the
connection send operation, in order, are exactly the encodings of the N
submissions in submission order, with nothing lost, duplicated or
reordered: the successful hand-offs equal the encodings for every
connection failure pattern, and the raw sequence of send calls equals the
encodings when the connection does not fail. -/
theorem c1_submission_ordering {Msg Addr : Type} (encode : Msg → Bytes)
    (failsOf : Nat → Nat) (flushOk : Nat → Bool) (addr : Addr) (msgs : List Msg) :
    deliveredOf (pipeline_events encode failsOf flushOk addr
        (msgs.map MsgMsg.logMsg ++ [MsgMsg.flush]))
      = msgs.map (fun m => (addr, encode m))
    ∧ sendCallsOf (pipeline_events encode (fun _ => 0) flushOk addr
        (msgs.map MsgMsg.logMsg ++ [MsgMsg.flush]))
      = msgs.map (fun m => (addr, encode m)) := by
  have henc : @msg_encode Msg Addr encode (msgs.map MsgMsg.logMsg ++ [MsgMsg.flush])
      = (msgs.map fun m => PacketMsg.packet (encode m)) ++ [PacketMsg.flush] := by
    rw [msg_encode_append, msg_encode_map_log]
    simp [msg_encode]
  constructor
  · unfold pipeline_events
    rw [henc, tcp_sender_split_flush encode failsOf flushOk addr msgs 0 0,
      deliveredOf_append, tcp_sender_packets_delivered encode failsOf flushOk addr msgs 0 0]
    simp [deliveredOf]
  · unfold pipeline_events
    rw [henc, tcp_sender_split_flush encode (fun _ => 0) flushOk addr msgs 0 0,
      sendCallsOf_append, tcp_sender_packets_calls encode flushOk addr msgs 0 0]
    simp [sendCallsOf]

/-- C2: whenever flush returns normally, every submission enqueued strictly
before the flush call has been passed to the connection send path at least
once before flush returns: in the pipeline event trace, the flush
acknowledgement is the final event, and a send call carrying each submitted
message occurs in the part strictly before it, for every connection failure
pattern. -/
theorem c2_flush_barrier {Msg Addr : Type} (encode : Msg → Bytes)
    (failsOf : Nat → Nat) (flushOk : Nat → Bool) (addr : Addr) (msgs : List Msg) :
    pipeline_events encode failsOf flushOk addr (msgs.map MsgMsg.logMsg ++ [MsgMsg.flush])
      = tcp_sender failsOf flushOk addr 0 0
          (msgs.map fun m => PacketMsg.packet (encode m))
        ++ [Event.connFlush (flushOk 0), Event.flushAck]
    ∧ ∀ m ∈ msgs, Event.sendCall addr (encode m)
        ∈ tcp_sender failsOf flushOk addr 0 0
            (msgs.map fun m => PacketMsg.packet (encode m)) := by
  constructor
  · unfold pipeline_events
    have henc : @msg_encode Msg Addr encode (msgs.map MsgMsg.logMsg ++ [MsgMsg.flush])
        = (msgs.map fun m => PacketMsg.packet (encode m)) ++ [PacketMsg.flush] := by
      rw [msg_encode_append, msg_encode_map_log]
      simp [msg_encode]
    rw [henc]
    exact tcp_sender_split_flush encode failsOf flushOk addr msgs 0 0
  · intro m hm
    exact tcp_sender_packets_mem encode failsOf flushOk addr msgs 0 0 m hm

/-- Witness for C2 at a concrete run: submissions 5 then 7, singleton-byte
encoding, a connection that fails the first attempt of every packet; the
send call for the first submission occurs among the events before the
acknowledgement. -/
theorem c2_flush_barrier_witness :
    Event.sendCall (0 : Nat) [5]
      ∈ tcp_sender (fun _ => 1) (fun _ => true) (0 : Nat) 0 0
          ([5, 7].map fun m : Nat => PacketMsg.packet [m]) :=
  (c2_flush_barrier (fun m : Nat => [m]) (fun _ => 1) (fun _ => true) 0 [5, 7]).2
    5 (by decide)

/-- C3 counterexample: an interrupt-triggered quit makes the encoder stage
loop return (so its thread ends, dropping the channel receiver), after
which the send operation of the client handle panics the producer thread
through the expect on the now-closed channel; the claim says no client
handle operation panics in any pipeline state, including this one. -/
theorem c3_panic_after_quit :
    (stageStep (@encoderProc Nat Nat fun n => [n]) Choice.quit
        { inQ := [], quitPending := true, core := [], done := false }).done = true
    ∧ client_send false
        = OpOutcome.panicked "msg_encoder should not shut down until we tell it to" :=
  ⟨rfl, rfl⟩

/-- C3 amended: while the encoder stage is running, the client handle
operations return without panicking and surface no error to the caller;
once an interrupt-triggered quit has made the encoder stage exit, each
operation that enqueues (send, set_addr, flush) panics the producer thread
through the expect on the closed channel. -/
theorem c3_no_panic_while_running (ackArrives : Bool) :
    (client_send true = OpOutcome.returned
      ∧ client_set_addr true = OpOutcome.returned
      ∧ (client_flush true ackArrives = FlushOutcome.flushComplete
          ∨ client_flush true ackArrives = FlushOutcome.flushAbortedWarning))
    ∧ (client_send false
        = OpOutcome.panicked "msg_encoder should not shut down until we tell it to"
      ∧ client_set_addr false
        = OpOutcome.panicked "msg_encoder should not shut down until we tell it to"
      ∧ client_flush false ackArrives
        = FlushOutcome.panicked "msg_encoder should not shut down until we tell it to") := by
  cases ackArrives with
  | false => exact ⟨⟨rfl, rfl, Or.inr rfl⟩, rfl, rfl, rfl⟩
  | true => exact ⟨⟨rfl, rfl, Or.inl rfl⟩, rfl, rfl, rfl⟩

/-- C4 evaluation at the failing input: three consecutive failed attempts
with error strings A, B, B. The source logs the first error three times: it
compares each new error to the error of the FIRST attempt (never updated)
and prints that stale first error. The claim prescribes two lines, the
second reporting B, the error of the attempt that just failed, and the
third attempt logging nothing. -/
theorem c4_log_dedup_divergence :
    send_log_lines ["A", "B", "B"] = ["A", "A", "A"]
    ∧ claim_log_lines ["A", "B", "B"] = ["A", "B"]
    ∧ send_log_lines ["A", "B", "B"] ≠ claim_log_lines ["A", "B", "B"] := by
  refine ⟨rfl, rfl, ?_⟩
  decide

/-- C6: for a packet whose send attempts keep failing with no abort, the
wait before the first retry is 100 ms, each subsequent failed attempt
doubles the wait, capped at 3000 ms, and no wait interval ever exceeds
3000 ms. -/
theorem c6_backoff_schedule (k : Nat) :
    (send_until_success k none).waits
      = (List.range k).map (fun i => min (100 * 2 ^ i) 3000)
    ∧ ∀ w ∈ (send_until_success k none).waits, w ≤ 3000 := by
  refine ⟨sus_waits k, ?_⟩
  intro w hw
  rw [sus_waits k] at hw
  rcases List.mem_map.mp hw with ⟨i, _, rfl⟩
  exact min_le_right _ _

/-- Witness for C6 at a concrete run: seven consecutive failures produce
the waits 100, 200, 400, 800, 1600, 3000, 3000; the capped wait 3000 is
among them and is within the cap. -/
theorem c6_backoff_schedule_witness :
    3000 ∈ (send_until_success 7 none).waits ∧ 3000 ≤ 3000 :=
  ⟨by decide, (c6_backoff_schedule 7).2 3000 (by decide)⟩

/-- C7: with a connection stub that fails the first k send attempts and
then succeeds, and no quit signal, send_until_success makes exactly k+1
attempts of which exactly one (the last) succeeds - the packet is delivered
exactly once, with no gap and no duplication - and it returns rather than
looping further or quitting. -/
theorem c7_retry_delivers_once (k : Nat) :
    (send_until_success k none).tries = List.replicate k false ++ [true]
    ∧ (send_until_success k none).tries.length = k + 1
    ∧ (send_until_success k none).tries.count true = 1
    ∧ (send_until_success k none).delivered = true
    ∧ (send_until_success k none).quit = false := by
  refine ⟨sus_tries k, ?_, ?_, sus_delivered k, sus_quit k⟩
  · rw [sus_tries k]
    simp
  · rw [sus_tries k]
    simp [List.count_replicate]

/-- C8 counterexample: a quit message is already in the sender stage quit
channel (quit has been issued) and a packet is enqueued afterwards; since
crossbeam select picks among ready branches nondeterministically, the
schedule in which the data branch wins processes that packet and hands its
bytes to the connection send path even though quit was issued before it was
enqueued. -/
theorem c8_post_quit_send :
    (stageStep (senderProc (fun _ => 0) (fun _ => true)) Choice.data
        (enqueue (PacketMsg.packet [7])
          { inQ := [], quitPending := true,
            core := { addr := (0 : Nat), pIdx := 0, fIdx := 0, events := [] },
            done := false })).core.events
      = [Event.sendCall (0 : Nat) [7], Event.delivered (0 : Nat) [7]] := by
  rfl

/-- C8 amended: once a stage observes the quit message (its select takes
the quit branch), it terminates at once with its core state untouched and,
under every subsequent schedule, processes no further items from its input
queue; however, a submission enqueued after quit was issued can still be
handed to the connection when the data branch of the select wins first. -/
theorem c8_quit_observed_stops {A S : Type} (proc : S → A → S)
    (s : StageState A S) (cs : List Choice)
    (hq : s.quitPending = true) (hd : s.done = false) :
    (stageStep proc Choice.quit s).done = true
    ∧ (stageStep proc Choice.quit s).core = s.core
    ∧ stageRun proc cs (stageStep proc Choice.quit s) = stageStep proc Choice.quit s := by
  have hstep : stageStep proc Choice.quit s = { s with done := true } := by
    cases s with
    | mk inQ qp core done =>
        subst hq
        subst hd
        cases inQ <;> rfl
  rw [hstep]
  exact ⟨rfl, rfl, stageRun_done proc cs _ rfl⟩

/-- Witness for C8 amended at a concrete stage state with a pending quit
and a non-empty input queue. -/
theorem c8_quit_observed_stops_witness :
    (stageStep (fun (s : Nat) (_ : Nat) => s + 1) Choice.quit
        { inQ := [4], quitPending := true, core := 0, done := false }).done = true :=
  (c8_quit_observed_stops (fun s _ => s + 1)
      { inQ := [4], quitPending := true, core := 0, done := false }
      [Choice.data] rfl rfl).1

/-- C9: in the execution submit A, then set_address addr2, then submit B,
the packet of A is delivered to the address active when A was processed
(unaffected by the later address change) and the packet of B is delivered
to addr2, for every connection failure pattern: the address change takes
effect exactly for the sends ordered after it. -/
theorem c9_set_addr_ordering {Msg Addr : Type} (encode : Msg → Bytes)
    (failsOf : Nat → Nat) (flushOk : Nat → Bool) (addr1 addr2 : Addr) (a b : Msg) :
    deliveredOf (pipeline_events encode failsOf flushOk addr1
        [MsgMsg.logMsg a, MsgMsg.setAddr addr2, MsgMsg.logMsg b])
      = [(addr1, encode a), (addr2, encode b)] := by
  simp [pipeline_events, msg_encode, tcp_sender, packetEvents_eq,
    deliveredOf_append, deliveredOf_map_sendCall, deliveredOf_replicate_sendCall,
    deliveredOf]

/-- C10: when the sender stage processes a flush control signal, it calls
the connection flush, discards its result, and sends exactly one FlushedMsg
acknowledgement unconditionally: the acknowledgement follows whatever the
flush result is (flushOk is arbitrary, so also an error), and over any
queue the number of acknowledgements equals the number of flush signals. -/
theorem c10_flush_ack_unconditional {Addr : Type} (failsOf : Nat → Nat)
    (flushOk : Nat → Bool) (addr : Addr) (pIdx fIdx : Nat)
    (ps : List (PacketMsg Addr)) :
    tcp_sender failsOf flushOk addr pIdx fIdx (PacketMsg.flush :: ps)
      = Event.connFlush (flushOk fIdx) :: Event.flushAck
          :: tcp_sender failsOf flushOk addr pIdx (fIdx + 1) ps
    ∧ ((tcp_sender failsOf flushOk addr pIdx fIdx ps).countP fun e => isFlushAck e)
      = ps.countP fun q => isFlushItem q :=
  ⟨rfl, tcp_sender_ack_count failsOf flushOk ps addr pIdx fIdx⟩

end BufferedClient
